import Mathlib

/-!
Shallow embedding of the EMIT hyperspectral processing pipeline
(`src/utils/emit_tools.py`, `src/utils/synthmix.py`, `src/unmix_image.py`)
and proofs about its masking, orthorectification, cropping, extraction,
mixing and inference-encoding behaviour.

Floating-point cell values are modelled by `Val`: either `NaN` or an exact
rational.  All sentinel comparisons in the source (`== -9999`, `== -0.1`,
`!= 1`, `> 1`) are exact equality tests, which `ℚ` models faithfully.
-/

/-- A floating-point cell value: NaN or a (finite) number, modelled as a
rational. -/
inductive Val where
  | nan : Val
  | num : ℚ → Val
deriving DecidableEq, Repr

instance : Inhabited Val := ⟨Val.nan⟩

/-! ## emit_xarray masking pass (src/utils/emit_tools.py, lines 110-118)

For each data variable `emit_xarray` runs three optional passes:

1. quality mask: the source evaluates `out_xr[var].where(qmask != 1, np.nan)`
   but never assigns the result of that expression to anything, so this pass
   leaves the variable unchanged;
2. band mask: `out_xr[var].data[unpacked_bmask == 1] = np.nan` (in-place,
   effective);
3. fill sentinel: `out_xr[var].data[out_xr[var].data == -9999] = np.nan`
   (in-place, effective).

A variable is a function of (downtrack, crosstrack, band). -/

/-- The value computed by the expression `out_xr[var].where(qmask != 1, np.nan)`
on line 113 of `src/utils/emit_tools.py` (`DataArray.where(cond, other)` keeps
the value where `cond` holds and writes `other` elsewhere).  The source
computes this expression and discards it. -/
def where_qmask (qmask : ℕ → ℕ → ℚ) (v : ℕ → ℕ → ℕ → Val) : ℕ → ℕ → ℕ → Val :=
  fun d c b => if qmask d c ≠ 1 then v d c b else Val.nan

/-- The masking pass of `emit_xarray` on one data variable
(`src/utils/emit_tools.py`, lines 110-118).  The quality-mask step computes
`where_qmask` but its result is not assigned back, so `v` flows through
unchanged; the band-mask and `-9999 → NaN` steps assign into the array and are
effective. -/
def emit_mask_pass (qmask : Option (ℕ → ℕ → ℚ)) (bmask : Option (ℕ → ℕ → ℕ → ℚ))
    (v : ℕ → ℕ → ℕ → Val) : ℕ → ℕ → ℕ → Val :=
  let v1 : ℕ → ℕ → ℕ → Val :=
    match qmask with
    | none => v
    | some qm =>
        -- `out_xr[var].where(qmask != 1, np.nan)` : value computed, result discarded
        let _discarded := where_qmask qm v
        v
  let v2 : ℕ → ℕ → ℕ → Val :=
    match bmask with
    | none => v1
    | some bm => fun d c b => if bm d c b = 1 then Val.nan else v1 d c b
  fun d c b => if v2 d c b = Val.num (-9999) then Val.nan else v2 d c b

/-! ## Final 8-bit narrowing of the abundance raster (src/unmix_image.py, lines 120-124)

`res["reflectance"].to_dataset(dim="class").fillna(255).astype("int8")` :
per cell, NaN is first replaced by `255`, then the float is cast to the NumPy
`int8` dtype.  The cast truncates toward zero and keeps the low 8 bits as a
two's-complement signed byte, so `255.0` becomes `-1`. -/

/-- `fillna(fill)` on one cell. -/
def fillna (fill : ℚ) : Val → ℚ
  | Val.nan => fill
  | Val.num q => q

/-- C-style float-to-integer conversion: truncation toward zero. -/
def truncInt (q : ℚ) : Int := if 0 ≤ q then ⌊q⌋ else ⌈q⌉

/-- NumPy `astype("int8")` on a finite float value: truncate toward zero,
keep the low 8 bits, interpret as a two's-complement signed byte. -/
def int8_cast (q : ℚ) : Int :=
  let m := truncInt q % 256
  if 128 ≤ m then m - 256 else m

/-- The final per-cell encoding of the abundance raster in `src/unmix_image.py`
(lines 120-124): `.fillna(255)` followed by `.astype("int8")`. -/
def final_narrow (v : Val) : Int := int8_cast (fillna 255 v)

/-! ## GLT orthorectification (src/utils/emit_tools.py, apply_glt / ortho_xr)

`apply_glt(ds_array, glt_array, fill_value=-9999, GLT_NODATA_VALUE=0)` :

* `glt_array` stacks `glt_x` (component 0) and `glt_y` (component 1) on the
  last axis; a cell is valid when both components differ from
  `GLT_NODATA_VALUE`;
* the output at a valid cell gathers `ds_array[glt_y - 1, glt_x - 1, :]`
  (the `-= 1` one-based adjustment happens before the gather), and holds
  `fill_value` at invalid cells;
* crucially, `glt_array[valid_glt] -= 1` mutates the *caller's* array: valid
  cells come back decremented in both components, invalid cells untouched.

`ortho_xr(ds, GLT_NODATA_VALUE=0, fill_value=-9999)` builds one integer GLT
(`np.nan_to_num(stack, nan=GLT_NODATA_VALUE).astype(int)`) and then calls
`apply_glt` once per data variable and once more for `elev`, always on the
*same* `glt_ds` array; after each call it replaces `fill_value` entries of the
output with NaN.  The inner `apply_glt` calls use `apply_glt`'s own default
`fill_value = -9999` (ortho's parameter is not forwarded), and the `elev` call
uses `apply_glt`'s default `GLT_NODATA_VALUE = 0` as well.

The state threading below makes the in-place mutation explicit: `apply_glt_mut`
is the GLT array as the caller sees it after a call. -/

/-- One cell of the stacked GLT array: `x` is component 0 (`glt_x`), `y` is
component 1 (`glt_y`). -/
structure GLTCell where
  x : Int
  y : Int
deriving DecidableEq, Repr

instance : Inhabited GLTCell := ⟨⟨0, 0⟩⟩

/-- `np.all(glt_array != GLT_NODATA_VALUE, axis=-1)` at one cell. -/
def validGLT (nodata : Int) (g : GLTCell) : Bool :=
  g.x != nodata && g.y != nodata

/-- One entry of `np.nan_to_num(..., nan=GLT_NODATA_VALUE).astype(int)`:
NaN becomes the no-data value, numbers are cast to integer (GLT entries are
integral, so floor agrees with the C truncation). -/
def toGLTInt (nodata : Int) : Val → Int
  | Val.nan => nodata
  | Val.num q => ⌊q⌋

/-- The orthorectified array produced by one `apply_glt` call: at a valid cell
the gather `ds_array[glt[...,1] - 1, glt[...,0] - 1, :]`, elsewhere
`fill_value`.  The sensor grid `ds` is indexed (downtrack, crosstrack, band);
2-D variables get a trailing singleton band axis in the source, so every
variable is a 3-D function here. -/
def apply_glt_out {R C : ℕ} (fill : ℚ) (nodata : Int) (ds : Int → Int → ℕ → Val)
    (glt : Fin R → Fin C → GLTCell) : Fin R → Fin C → ℕ → Val :=
  fun r c b =>
    if validGLT nodata (glt r c) then ds ((glt r c).y - 1) ((glt r c).x - 1) b
    else Val.num fill

/-- The caller's GLT array after one `apply_glt` call: the in-place
`glt_array[valid_glt] -= 1` has decremented both components of every valid
cell and left invalid cells unchanged. -/
def apply_glt_mut {R C : ℕ} (nodata : Int) (glt : Fin R → Fin C → GLTCell) :
    Fin R → Fin C → GLTCell :=
  fun r c =>
    if validGLT nodata (glt r c) then ⟨(glt r c).x - 1, (glt r c).y - 1⟩
    else glt r c

/-- `out_ds[out_ds == fill_value] = np.nan` at one cell. -/
def maskFill (fill : ℚ) (v : Val) : Val :=
  if v = Val.num fill then Val.nan else v

/-- The variable loop of `ortho_xr`: each variable is remapped with the current
GLT array (`apply_glt` with its own default `fill_value = -9999`), its fill
entries replaced by NaN, and the shared GLT array carries the in-place
mutation into the next iteration.  Returns the orthorectified variables and
the final state of the GLT array. -/
def ortho_vars {R C : ℕ} (nodata : Int) (fv : ℚ) :
    List (Int → Int → ℕ → Val) → (Fin R → Fin C → GLTCell) →
    List (Fin R → Fin C → ℕ → Val) × (Fin R → Fin C → GLTCell)
  | [], glt => ([], glt)
  | v :: vs, glt =>
      let out := fun r c b => maskFill fv (apply_glt_out (-9999) nodata v glt r c b)
      let rest := ortho_vars nodata fv vs (apply_glt_mut nodata glt)
      (out :: rest.1, rest.2)

/-- `ortho_xr(ds, GLT_NODATA_VALUE, fill_value)`: build the integer GLT from
the raw (possibly NaN) `glt_x`/`glt_y` coordinates, remap every data variable
in order, then remap `elev` with the (by now mutated) same GLT array —
the `elev` call uses `apply_glt`'s defaults `fill_value = -9999` and
`GLT_NODATA_VALUE = 0`.  Returns the orthorectified variables and the
orthorectified elevation. -/
def ortho_xr_model {R C : ℕ} (nodata : Int) (fv : ℚ)
    (vars : List (Int → Int → ℕ → Val)) (elev : Int → Int → ℕ → Val)
    (gltRaw : Fin R → Fin C → Val × Val) :
    List (Fin R → Fin C → ℕ → Val) × (Fin R → Fin C → ℕ → Val) :=
  let glt0 : Fin R → Fin C → GLTCell := fun r c =>
    ⟨toGLTInt nodata (gltRaw r c).1, toGLTInt nodata (gltRaw r c).2⟩
  let p := ortho_vars nodata fv vars glt0
  (p.1, fun r c b => maskFill fv (apply_glt_out (-9999) 0 elev p.2 r c b))

/-! ## Concrete instances used by the GLT theorems and witnesses -/

/-- A 1×1 GLT whose single entry is the (valid, 1-based) pair
`glt_x = glt_y = 1`. -/
def glt2raw : Fin 1 → Fin 1 → Val × Val := fun _ _ => (Val.num 1, Val.num 1)

/-- A sensor-grid variable holding `5` at (downtrack, crosstrack) = (0, 0). -/
def var2ex : Int → Int → ℕ → Val :=
  fun y x _ => if y = 0 ∧ x = 0 then Val.num 5 else Val.num 9

/-- An elevation grid holding `7` at (downtrack, crosstrack) = (0, 0). -/
def elev2ex : Int → Int → ℕ → Val :=
  fun y x _ => if y = 0 ∧ x = 0 then Val.num 7 else Val.num 9

/-- A 1×1 GLT whose single entry is invalid: `glt_x = 0` (the GLT no-data
value). -/
def glt3raw : Fin 1 → Fin 1 → Val × Val := fun _ _ => (Val.num 0, Val.num 3)

/-- A constant sensor-grid variable. -/
def var3ex : Int → Int → ℕ → Val := fun _ _ _ => Val.num 2

/-- A 1×1 GLT array (already stacked and integer-cast) with the valid entry
`(glt_x, glt_y) = (2, 3)`. -/
def glt10 : Fin 1 → Fin 1 → GLTCell := fun _ _ => ⟨2, 3⟩

/-! ## Tiled inference (src/unmix_image.py, pred_chunk and the mask pass)

`pred_chunk(arr, fmodel)` drops the last wavelength band, flattens the spatial
axes, replaces NaN with 0, runs the regression model, clips the result to
`[0, 100]` and reshapes back.  Flatten/reshape cancel per pixel, so a pixel is
a point of an abstract spatial type `P`, a tile is `P → List Val`, and the
model an opaque `List ℚ → Fin 4 → ℚ` (the class axis has length 4,
`output_sizes={"class": 4}`). -/

/-- `np.clip(x, lo, hi)` = `minimum(maximum(x, lo), hi)`. -/
def np_clip (lo hi x : ℚ) : ℚ := min (max x lo) hi

/-- `np.nan_to_num` on one cell: NaN becomes 0, numbers pass through. -/
def nan_to_num : Val → ℚ
  | Val.nan => 0
  | Val.num q => q

/-- `pred_chunk` of `src/unmix_image.py` (lines 28-39) at one pixel and class:
drop the last band (`arr[:,:,:-1]`), replace NaN with 0, predict, clip to
`[0, 100]`. -/
def pred_chunk {P : Type} (fmodel : List ℚ → Fin 4 → ℚ) (arr : P → List Val) :
    P → Fin 4 → ℚ :=
  fun p c => np_clip 0 100 (fmodel ((arr p).dropLast.map nan_to_num) c)

/-- The quality-mask pass of `src/unmix_image.py` (lines 98-99):
`res = res.where(mask != 1, -9999)` with the mask broadcast across the class
axis — keep the prediction where the mask differs from 1, write `-9999`
elsewhere. -/
def mask_result {P : Type} (mask : P → ℚ) (res : P → Fin 4 → ℚ) : P → Fin 4 → ℚ :=
  fun p c => if mask p ≠ 1 then res p c else -9999

/-- Concrete model for the C5 witness: returns the feature sum plus 250
(deliberately outside `[0, 100]` before clipping). -/
def model5 : List ℚ → Fin 4 → ℚ := fun xs _ => xs.sum + 250

/-- Concrete one-pixel tile for the C5 witness. -/
def arr5 : Fin 1 → List Val := fun _ => [Val.nan, Val.num 3, Val.num 1]

/-- Concrete quality mask for the C5 witness: the pixel is flagged. -/
def mask5 : Fin 1 → ℚ := fun _ => 1

/-! ## GLT re-indexing in raw_spatial_crop (src/utils/emit_tools.py, lines 511-514)

`glt_x_data = (clipped.glt_x.data - np.nanmin(clipped.glt_x)) + 1` followed by
`np.nan_to_num(glt_x_data)` (and identically for `glt_y`): subtract the
NaN-ignoring minimum, add 1, turn the NaNs (which propagate through the
arithmetic) into 0.  One axis of the clipped GLT is modelled as a flat list of
cells. -/

/-- The finite (non-NaN) entries of one GLT axis. -/
def validVals (l : List Val) : List ℚ :=
  l.filterMap fun v => match v with
    | Val.nan => none
    | Val.num q => some q

/-- `np.nanmin`: the minimum over the non-NaN entries (the all-NaN case never
arises under the hypotheses used below). -/
def nanmin (l : List Val) : ℚ :=
  match validVals l with
  | [] => 0
  | q :: qs => qs.foldl min q

/-- The re-indexing of one GLT axis in `raw_spatial_crop`:
`np.nan_to_num((l - np.nanmin(l)) + 1)` per entry (NaN propagates through the
subtraction and addition, then `nan_to_num` maps it to 0). -/
def reindex_glt (l : List Val) : List ℚ :=
  l.map fun v =>
    match v with
    | Val.nan => 0
    | Val.num q => q - nanmin l + 1

/-- Concrete clipped GLT axis for the C6 witness. -/
def glt6 : List Val := [Val.num 3, Val.nan, Val.num 5]

/-! ## Point extraction (src/utils/synthmix.py, extract_points)

After the nearest-neighbour selection and the Category join, `extract_points`
holds a long table with one row per (point, wavelength) pair and runs
`df.loc[:]['reflectance'][df.loc[:]['reflectance'] == -0.1] = 0` — a boolean
mask assignment into the shared reflectance column (`df.loc[:]` is a shallow
copy, so the write lands in `df`'s own column) — before the
`pivot(index='ID', columns='wavelengths', values='reflectance')` reshaping. -/

/-- One row of the long extracted table: point ID, Category label, wavelength
and the sampled reflectance. -/
structure SpecRow where
  pid : ℕ
  category : String
  wavelength : ℚ
  reflectance : Val
deriving DecidableEq, Repr

instance : Inhabited SpecRow := ⟨⟨0, "", 0, Val.nan⟩⟩

/-- The fill-value normalization applied to one row: a reflectance exactly
equal to `-0.1` becomes `0`; anything else (including NaN) is untouched, and
no other field is written. -/
def replace_fill_row (r : SpecRow) : SpecRow :=
  if r.reflectance = Val.num (-1/10) then { r with reflectance := Val.num 0 } else r

/-- The long table as it stands after the `== -0.1` mask assignment — this is
the table the `pivot` call then consumes, and also the value `extract_points`
returns. -/
def extract_points_table (rows : List SpecRow) : List SpecRow :=
  rows.map replace_fill_row

/-- Concrete extracted table for the C7 witness. -/
def rows7 : List SpecRow :=
  [⟨1, "tree", 500, Val.num (-1/10)⟩, ⟨2, "bare", 500, Val.num (3/10)⟩]

/-! ## Quality mask construction (src/utils/emit_tools.py, quality_mask)

`quality_mask(filepath, quality_bands)` opens the mask product, prints the
selected flag names, raises if the selection touches the reserved data bands
5 or 6, and otherwise sums the selected flag planes and clamps sums above 1
down to 1.  The raise sits before the summation, so the error never depends on
the mask array's contents.  The raise is modelled with `Except`. -/

/-- The mask product: the `mask` array (downtrack, crosstrack, flag band) and
the parallel flag-name list. -/
structure MaskFile where
  mask : ℕ → ℕ → ℕ → ℚ
  mask_bands : List String

/-- `qmask[qmask > 1] = 1` at one pixel. -/
def clampMask (s : ℚ) : ℚ := if 1 < s then 1 else s

/-- `quality_mask` of `src/utils/emit_tools.py` (lines 261-286): error when
`any(x in quality_bands for x in [5, 6])`, otherwise the clamped sum of the
selected flag planes. -/
def quality_mask (f : MaskFile) (quality_bands : List ℕ) : Except String (ℕ → ℕ → ℚ) :=
  if 5 ∈ quality_bands ∨ 6 ∈ quality_bands then
    Except.error "Selected flags include a data band (5 or 6) not just flag bands"
  else
    Except.ok fun d c => clampMask ((quality_bands.map fun b => f.mask d c b).sum)

/-- Concrete mask product for the C9 witness. -/
def mfile9 : MaskFile := ⟨fun _ _ b => if b = 7 then 1 else 0, []⟩

/-- A second, different mask product for the C9 witness (the error cannot see
the mask contents). -/
def mfile9b : MaskFile := ⟨fun _ _ _ => 1, ["cloud"]⟩

/-! ## Synthetic mixing (src/utils/synthmix.py, mix_fast)

Each draw of `mix_fast` samples 1-2 distinct rows and Dirichlet weights and
builds the class label through
`pivot_table(index, columns='Category', values='weight', aggfunc='sum')`,
`fillna(0)`, a loop adding a zero column for every class of
`all_class = list(df['Category'].unique())` not already present,
`sort_index(axis=1)` and a column sum.  The randomness enters as data:
`sampled` is the list of (Category, weight) pairs of the drawn rows, and
`cats` is the Category column of the source dataframe. -/

/-- Insertion into a ≤-sorted list of class names. -/
def insertSorted (s : String) : List String → List String
  | [] => [s]
  | t :: ts => if s ≤ t then s :: t :: ts else t :: insertSorted s ts

/-- Sorting of the label columns by class name (`sort_index(axis=1)`). -/
def sortCols : List String → List String
  | [] => []
  | s :: ss => insertSorted s (sortCols ss)

/-- The summed weight a class receives from the sampled records: the column
sum of the weight pivot after `fillna(0)` — absent cells contribute 0, equal
categories are summed by `aggfunc='sum'`. -/
def classWeight (sampled : List (String × ℚ)) (c : String) : ℚ :=
  ((sampled.filter fun p => p.1 = c).map Prod.snd).sum

/-- The label columns: the distinct sampled categories (the pivot columns),
then every class of `all_class = unique(cats)` not already present added with
weight 0, then the name sort. -/
def label_cols (cats : List String) (sampled : List (String × ℚ)) : List String :=
  sortCols ((sampled.map Prod.fst).dedup
    ++ cats.dedup.filter fun c => c ∉ sampled.map Prod.fst)

/-- The class-proportion label vector of one synthetic record built by
`mix_fast`: one (class, summed weight) pair per label column. -/
def mix_label (cats : List String) (sampled : List (String × ℚ)) :
    List (String × ℚ) :=
  (label_cols cats sampled).map fun c => (c, classWeight sampled c)

/-- Concrete Category column for the C8 witness. -/
def cats8 : List String := ["tree", "bare", "tree", "water"]

/-- Concrete draw for the C8 witness: two records with Dirichlet weights
`1/3` and `2/3`. -/
def sampled8 : List (String × ℚ) := [("tree", 1/3), ("bare", 2/3)]

/-! ## Theorems for claims C1 and C4 -/

/-- C1: the spec claims that when a quality mask is provided, every pixel where
the mask equals 1 is NaN in every band of the returned dataset.  The code
computes `out_xr[var].where(qmask != 1, np.nan)` but discards the result, so
the mask has no effect: with `qmask ≡ 1` and a variable holding `5`
(not the `-9999` sentinel), the returned value is still `5`, not NaN — even
though the discarded `where` expression did evaluate to NaN there. -/
theorem claimC1_qmask_discarded :
    emit_mask_pass (some (fun _ _ => 1)) none (fun _ _ _ => Val.num 5) 0 0 0 = Val.num 5
    ∧ Val.num 5 ≠ Val.nan
    ∧ where_qmask (fun _ _ => 1) (fun _ _ _ => Val.num 5) 0 0 0 = Val.nan := by
  refine ⟨rfl, by decide, ?_⟩
  simp [where_qmask]

/-- C4: the spec claims every NaN/missing cell holds the sentinel `255` after
the final narrowing to an 8-bit integer type.  The code narrows with
`astype("int8")`, and `255` is not representable in `int8`: a NaN cell is
filled with `255.0` and then cast to `-1`.  In-range values such as `42` are
kept, so the slip is exactly the signedness of the target dtype. -/
theorem claimC4_int8_overflow :
    final_narrow Val.nan = -1 ∧ ((-1 : Int) ≠ 255) ∧ final_narrow (Val.num 42) = 42 := by
  refine ⟨by decide, by decide, by decide⟩

/-! ## Theorems for claims C2, C3 and C10 -/

/-- Helper for C3: once a cell of the shared GLT array is invalid, the variable
loop of `ortho_xr` keeps it invalid (the in-place decrement skips invalid
cells), every orthorectified variable is NaN there, and the final GLT state is
still invalid at that cell. -/
theorem ortho_vars_invalid {R C : ℕ} (nodata : Int)
    (vs : List (Int → Int → ℕ → Val)) (glt : Fin R → Fin C → GLTCell)
    (r : Fin R) (c : Fin C)
    (h : validGLT nodata (glt r c) = false) :
    (∀ out ∈ (ortho_vars nodata (-9999) vs glt).1, ∀ b, out r c b = Val.nan)
    ∧ validGLT nodata ((ortho_vars nodata (-9999) vs glt).2 r c) = false := by
  induction vs generalizing glt with
  | nil =>
      refine ⟨?_, h⟩
      intro out hout
      simp [ortho_vars] at hout
  | cons v vs ih =>
      have hmut : apply_glt_mut nodata glt r c = glt r c := by
        simp [apply_glt_mut, h]
      have h' : validGLT nodata (apply_glt_mut nodata glt r c) = false := by
        rw [hmut]; exact h
      obtain ⟨ih1, ih2⟩ := ih (apply_glt_mut nodata glt) h'
      constructor
      · intro out hout b
        simp only [ortho_vars, List.mem_cons] at hout
        rcases hout with rfl | hout
        · simp [apply_glt_out, h, maskFill]
        · exact ih1 out hout b
      · simpa only [ortho_vars] using ih2

/-- C3: for every data variable and for the elevation, every output cell whose
GLT entry is invalid (the integer-cast `glt_x` or `glt_y` equals the GLT
no-data value 0) is NaN in the result of `ortho_xr` (with the no-data value 0
and fill value `-9999` used at every call site). -/
theorem claimC3_invalid_glt_nan {R C : ℕ}
    (vars : List (Int → Int → ℕ → Val)) (elev : Int → Int → ℕ → Val)
    (gltRaw : Fin R → Fin C → Val × Val) (r : Fin R) (c : Fin C) (b : ℕ)
    (hinv : toGLTInt 0 (gltRaw r c).1 = 0 ∨ toGLTInt 0 (gltRaw r c).2 = 0) :
    (∀ out ∈ (ortho_xr_model 0 (-9999) vars elev gltRaw).1, out r c b = Val.nan)
    ∧ (ortho_xr_model 0 (-9999) vars elev gltRaw).2 r c b = Val.nan := by
  set glt0 : Fin R → Fin C → GLTCell := fun r c =>
    ⟨toGLTInt 0 (gltRaw r c).1, toGLTInt 0 (gltRaw r c).2⟩ with hglt0
  have hv : validGLT 0 (glt0 r c) = false := by
    rcases hinv with h | h <;> simp [hglt0, validGLT, h]
  obtain ⟨h1, h2⟩ := ortho_vars_invalid 0 vars glt0 r c hv
  constructor
  · intro out hout
    exact h1 out hout b
  · show maskFill (-9999)
      (apply_glt_out (-9999) 0 elev (ortho_vars 0 (-9999) vars glt0).2 r c b) = Val.nan
    rw [show apply_glt_out (-9999) 0 elev (ortho_vars 0 (-9999) vars glt0).2 r c b
          = Val.num (-9999) by simp [apply_glt_out, h2]]
    simp [maskFill]

/-- C3 witness: with a concrete 1×1 GLT whose entry has `glt_x = 0`, the
orthorectified elevation is NaN at that cell. -/
theorem claimC3_witness :
    (ortho_xr_model 0 (-9999) [var3ex] var3ex glt3raw).2 0 0 0 = Val.nan :=
  (claimC3_invalid_glt_nan [var3ex] var3ex glt3raw 0 0 0 (Or.inl (by decide))).2

/-- C2: the spec claims the 1-based-to-0-based GLT conversion is applied
independently per variable, so a GLT entry of value 1 maps to sensor index 0
for every remapped variable, including elevation.  The code mutates the shared
GLT array in place, so with one data variable and the elevation remapped in
the same `ortho_xr` call on a GLT entry `(1, 1)`, the data variable correctly
reads sensor cell (0, 0) (value 5) but the elevation — remapped second, after
the entry was decremented to the invalid `(0, 0)` — comes back NaN instead of
the sensor value 7 at cell (0, 0). -/
theorem claimC2_shared_glt_mutation :
    (ortho_xr_model 0 (-9999) [var2ex] elev2ex glt2raw).1.headI 0 0 0 = Val.num 5
    ∧ (ortho_xr_model 0 (-9999) [var2ex] elev2ex glt2raw).2 0 0 0 = Val.nan
    ∧ elev2ex 0 0 0 = Val.num 7
    ∧ Val.nan ≠ Val.num 7 := by
  refine ⟨by decide, by decide, by decide, by decide⟩

/-- C10: `apply_glt` mutates its `glt_array` argument in place — after a call,
every valid cell (both components different from `GLT_NODATA_VALUE`) has been
decremented by 1 in both components, so the caller's array is not left
unchanged. -/
theorem claimC10_apply_glt_mutates {R C : ℕ} (nodata : Int)
    (glt : Fin R → Fin C → GLTCell) (r : Fin R) (c : Fin C)
    (h : validGLT nodata (glt r c) = true) :
    apply_glt_mut nodata glt r c = ⟨(glt r c).x - 1, (glt r c).y - 1⟩
    ∧ apply_glt_mut nodata glt r c ≠ glt r c := by
  have hx : apply_glt_mut nodata glt r c = ⟨(glt r c).x - 1, (glt r c).y - 1⟩ := by
    simp [apply_glt_mut, h]
  refine ⟨hx, ?_⟩
  intro heq
  have := congrArg GLTCell.x (hx ▸ heq)
  simp at this

/-- C10 witness: on a concrete 1×1 GLT with the valid entry `(2, 3)`, the call
leaves the entry decremented to `(1, 2)`, a changed array. -/
theorem claimC10_witness :
    apply_glt_mut 0 glt10 0 0 = ⟨(glt10 0 0).x - 1, (glt10 0 0).y - 1⟩
    ∧ apply_glt_mut 0 glt10 0 0 ≠ glt10 0 0 :=
  claimC10_apply_glt_mutates 0 glt10 0 0 (by decide)

/-! ## Theorems for claim C5 -/

/-- C5: for any model output over a tile, `pred_chunk` results lie in
`[0, 100]` at every pixel and class before the quality-mask pass; after the
pass `res.where(mask != 1, -9999)`, every mask-flagged pixel holds exactly
`-9999` in every class band, whatever the model produced there. -/
theorem claimC5_clip_and_mask {P : Type} (fmodel : List ℚ → Fin 4 → ℚ)
    (arr : P → List Val) (mask : P → ℚ) :
    (∀ p c, 0 ≤ pred_chunk fmodel arr p c ∧ pred_chunk fmodel arr p c ≤ 100)
    ∧ (∀ p c, mask p = 1 → mask_result mask (pred_chunk fmodel arr) p c = -9999) := by
  constructor
  · intro p c
    unfold pred_chunk np_clip
    exact ⟨le_min (le_max_right _ _) (by norm_num), min_le_right _ _⟩
  · intro p c h
    simp [mask_result, h]

/-- C5 witness: a concrete model returning 254 on the witness tile is clipped
into `[0, 100]`, and the flagged pixel is `-9999` after the mask pass. -/
theorem claimC5_witness :
    (0 ≤ pred_chunk model5 arr5 0 0 ∧ pred_chunk model5 arr5 0 0 ≤ 100)
    ∧ mask_result mask5 (pred_chunk model5 arr5) 0 0 = -9999 :=
  ⟨(claimC5_clip_and_mask model5 arr5 mask5).1 0 0,
   (claimC5_clip_and_mask model5 arr5 mask5).2 0 0 rfl⟩

/-! ## Theorems for claim C6 -/

/-- `List.foldl min` is bounded by its initial value. -/
theorem foldl_min_le_init (qs : List ℚ) (q : ℚ) : qs.foldl min q ≤ q := by
  induction qs generalizing q with
  | nil => simp
  | cons a as ih =>
      calc as.foldl min (min q a) ≤ min q a := ih _
      _ ≤ q := min_le_left _ _

/-- `List.foldl min` is bounded by every list element. -/
theorem foldl_min_le_mem (qs : List ℚ) (q x : ℚ) (hx : x ∈ qs) :
    qs.foldl min q ≤ x := by
  induction qs generalizing q with
  | nil => simp at hx
  | cons a as ih =>
      rcases List.mem_cons.mp hx with rfl | hx
      · calc as.foldl min (min q x) ≤ min q x := foldl_min_le_init _ _
        _ ≤ x := min_le_right _ _
      · exact ih (min q a) hx

/-- `List.foldl min` is attained: it equals the initial value or a member. -/
theorem foldl_min_attained (qs : List ℚ) (q : ℚ) :
    qs.foldl min q = q ∨ qs.foldl min q ∈ qs := by
  induction qs generalizing q with
  | nil => exact Or.inl rfl
  | cons a as ih =>
      rcases ih (min q a) with h | h
      · rcases min_cases q a with ⟨hm, _⟩ | ⟨hm, _⟩
        · left; rw [List.foldl_cons, h, hm]
        · right; rw [List.foldl_cons, h, hm]; exact List.mem_cons_self a as
      · right; exact List.mem_cons_of_mem a h

/-- `nanmin` bounds every finite entry from below. -/
theorem nanmin_le (l : List Val) (x : ℚ) (hx : x ∈ validVals l) : nanmin l ≤ x := by
  unfold nanmin
  cases h : validVals l with
  | nil => rw [h] at hx; simp at hx
  | cons q qs =>
      rw [h] at hx
      rcases List.mem_cons.mp hx with rfl | hx
      · exact foldl_min_le_init qs x
      · exact foldl_min_le_mem qs q x hx

/-- `nanmin` of a list with at least one finite entry is one of the finite
entries. -/
theorem nanmin_mem (l : List Val) (hne : validVals l ≠ []) :
    nanmin l ∈ validVals l := by
  unfold nanmin
  cases h : validVals l with
  | nil => exact absurd h hne
  | cons q qs =>
      show qs.foldl min q ∈ q :: qs
      rcases foldl_min_attained qs q with h' | h'
      · rw [h']; exact List.mem_cons_self q qs
      · exact List.mem_cons_of_mem q h'

/-- A finite entry of the list is a member of `validVals`. -/
theorem getElem_mem_validVals (l : List Val) (i : ℕ) (hi : i < l.length) (q : ℚ)
    (hq : l[i] = Val.num q) : q ∈ validVals l := by
  unfold validVals
  refine List.mem_filterMap.mpr ⟨Val.num q, ?_, rfl⟩
  rw [← hq]
  exact List.getElem_mem hi

/-- C6: after the GLT re-indexing of `raw_spatial_crop`, every NaN entry of
the clipped axis comes out as 0, every finite entry comes out as
`entry - nanmin + 1` (hence at least 1), and the value 1 is attained at some
finite entry — the minimum valid index of the re-based axis is exactly 1. -/
theorem claimC6_reindex (l : List Val) (h : validVals l ≠ []) :
    (∀ i, i < l.length → l.getD i Val.nan = Val.nan → (reindex_glt l).getD i 1 = 0)
    ∧ (∀ i q, i < l.length → l.getD i Val.nan = Val.num q →
        (reindex_glt l).getD i 0 = q - nanmin l + 1 ∧ 1 ≤ (reindex_glt l).getD i 0)
    ∧ (∃ i q, i < l.length ∧ l.getD i Val.nan = Val.num q
        ∧ (reindex_glt l).getD i 0 = 1) := by
  have hlen : ∀ i, i < l.length → i < (reindex_glt l).length := by
    intro i hi; simpa [reindex_glt] using hi
  refine ⟨?_, ?_, ?_⟩
  · intro i hi hnan
    rw [List.getD_eq_getElem _ _ hi] at hnan
    rw [List.getD_eq_getElem _ _ (hlen i hi)]
    simp [reindex_glt, hnan]
  · intro i q hi hq
    rw [List.getD_eq_getElem _ _ hi] at hq
    have hout : (reindex_glt l).getD i 0 = q - nanmin l + 1 := by
      rw [List.getD_eq_getElem _ _ (hlen i hi)]
      simp [reindex_glt, hq]
    refine ⟨hout, ?_⟩
    rw [hout]
    have := nanmin_le l q (getElem_mem_validVals l i hi q hq)
    linarith
  · have hmem := nanmin_mem l h
    unfold validVals at hmem
    obtain ⟨v, hv, hvq⟩ := List.mem_filterMap.mp hmem
    have hvn : v = Val.num (nanmin l) := by
      cases v with
      | nan => simp at hvq
      | num q => simp at hvq; rw [hvq]
    obtain ⟨i, hi, hgi⟩ := List.mem_iff_getElem.mp hv
    refine ⟨i, nanmin l, hi, ?_, ?_⟩
    · rw [List.getD_eq_getElem _ _ hi, hgi, hvn]
    · rw [List.getD_eq_getElem _ _ (hlen i hi)]
      simp [reindex_glt, hgi, hvn]

/-- C6 witness: the axis `[3, NaN, 5]` re-indexes to `[1, 0, 3]` — the NaN is
filled with 0 and the minimum valid entry is 1. -/
theorem claimC6_witness :
    (reindex_glt glt6).getD 1 1 = 0
    ∧ (reindex_glt glt6).getD 0 0 = 3 - nanmin glt6 + 1
    ∧ 1 ≤ (reindex_glt glt6).getD 0 0 :=
  ⟨(claimC6_reindex glt6 (by decide)).1 1 (by decide) (by decide),
   ((claimC6_reindex glt6 (by decide)).2.1 0 3 (by decide) (by decide)).1,
   ((claimC6_reindex glt6 (by decide)).2.1 0 3 (by decide) (by decide)).2⟩

/-! ## Theorems for claim C7 -/

/-- C7: in the long extracted table, the normalization before the pivot
rewrites a reflectance exactly equal to `-0.1` to `0`, leaves every other
reflectance unchanged, and writes no other column. -/
theorem claimC7_replace_fill (rows : List SpecRow) (i : ℕ) (hi : i < rows.length) :
    ((extract_points_table rows).getD i default).reflectance
      = (if (rows.getD i default).reflectance = Val.num (-1/10) then Val.num 0
         else (rows.getD i default).reflectance)
    ∧ ((extract_points_table rows).getD i default).pid = (rows.getD i default).pid
    ∧ ((extract_points_table rows).getD i default).category
        = (rows.getD i default).category
    ∧ ((extract_points_table rows).getD i default).wavelength
        = (rows.getD i default).wavelength := by
  have hlen : i < (extract_points_table rows).length := by
    simpa [extract_points_table] using hi
  rw [List.getD_eq_getElem _ _ hlen, List.getD_eq_getElem _ _ hi]
  simp only [extract_points_table, List.getElem_map]
  unfold replace_fill_row
  by_cases hr : rows[i].reflectance = Val.num (-1/10) <;> simp [hr]

/-- C7 witness: in a concrete two-row table the `-0.1` reflectance of row 0 is
rewritten to `0` and its other columns survive. -/
theorem claimC7_witness :
    ((extract_points_table rows7).getD 0 default).reflectance
      = (if (rows7.getD 0 default).reflectance = Val.num (-1/10) then Val.num 0
         else (rows7.getD 0 default).reflectance)
    ∧ ((extract_points_table rows7).getD 0 default).pid = (rows7.getD 0 default).pid
    ∧ ((extract_points_table rows7).getD 0 default).category
        = (rows7.getD 0 default).category
    ∧ ((extract_points_table rows7).getD 0 default).wavelength
        = (rows7.getD 0 default).wavelength :=
  claimC7_replace_fill rows7 0 (by decide)

/-! ## Theorems for claim C9 -/

/-- C9: `quality_mask` errors whenever the flag-index list contains 5 or 6,
and it does so before touching the mask array — the result is the same for any
two mask products; with the list `[7]` it succeeds and returns a mask. -/
theorem claimC9_reserved_bands (f g : MaskFile) (qb : List ℕ) :
    ((5 ∈ qb ∨ 6 ∈ qb) →
        quality_mask f qb
          = Except.error "Selected flags include a data band (5 or 6) not just flag bands"
        ∧ quality_mask f qb = quality_mask g qb)
    ∧ (quality_mask f [7]).isOk = true := by
  refine ⟨fun h => ?_, ?_⟩
  · have hf : quality_mask f qb
        = Except.error "Selected flags include a data band (5 or 6) not just flag bands" := by
      unfold quality_mask
      rw [if_pos h]
    have hg : quality_mask g qb
        = Except.error "Selected flags include a data band (5 or 6) not just flag bands" := by
      unfold quality_mask
      rw [if_pos h]
    exact ⟨hf, hf.trans hg.symm⟩
  · unfold quality_mask
    rw [if_neg (by decide)]
    rfl

/-- C9 witness: `[5]` errors identically on two different mask products, and
`[7]` succeeds on a concrete product. -/
theorem claimC9_witness :
    (quality_mask mfile9 [5]
        = Except.error "Selected flags include a data band (5 or 6) not just flag bands"
      ∧ quality_mask mfile9 [5] = quality_mask mfile9b [5])
    ∧ (quality_mask mfile9 [7]).isOk = true :=
  ⟨(claimC9_reserved_bands mfile9 mfile9b [5]).1 (Or.inl (by decide)),
   (claimC9_reserved_bands mfile9 mfile9b [7]).2⟩

/-! ## Theorems for claim C8 -/

/-- `insertSorted` permutes the consed list. -/
theorem insertSorted_perm (s : String) (l : List String) :
    List.Perm (insertSorted s l) (s :: l) := by
  induction l with
  | nil => exact List.Perm.refl _
  | cons t ts ih =>
      unfold insertSorted
      by_cases h : s ≤ t
      · rw [if_pos h]
      · rw [if_neg h]
        exact List.Perm.trans (List.Perm.cons t ih) (List.Perm.swap s t ts)

/-- `sortCols` permutes its input. -/
theorem sortCols_perm (l : List String) : List.Perm (sortCols l) l := by
  induction l with
  | nil => exact List.Perm.refl _
  | cons s ss ih =>
      exact List.Perm.trans (insertSorted_perm s (sortCols ss)) (List.Perm.cons s ih)

/-- The label columns before sorting carry no duplicate class. -/
theorem label_cols_base_nodup (cats : List String) (sampled : List (String × ℚ)) :
    ((sampled.map Prod.fst).dedup
      ++ cats.dedup.filter fun c => c ∉ sampled.map Prod.fst).Nodup := by
  refine (List.nodup_dedup _).append ((List.nodup_dedup cats).filter _) ?_
  intro a ha hb
  have hdec := List.of_mem_filter hb
  simp only [decide_not, Bool.not_eq_true', decide_eq_false_iff_not] at hdec
  exact hdec (List.mem_dedup.mp ha)

/-- Splitting `classWeight` at a consed sample. -/
theorem classWeight_cons (a : String) (w : ℚ) (s : List (String × ℚ)) (c : String) :
    classWeight ((a, w) :: s) c = (if a = c then w else 0) + classWeight s c := by
  unfold classWeight
  by_cases h : a = c
  · simp [List.filter_cons, h]
  · simp [List.filter_cons, h]

/-- The weight of a draw lands exactly once in a duplicate-free column sum. -/
theorem sum_ite_eq_of_nodup (cols : List String) (a : String) (w : ℚ)
    (hnd : cols.Nodup) (ha : a ∈ cols) :
    (cols.map fun c => if a = c then w else 0).sum = w := by
  induction cols with
  | nil => simp at ha
  | cons b bs ih =>
      rcases List.mem_cons.mp ha with rfl | ha
      · have hnb : a ∉ bs := (List.nodup_cons.mp hnd).1
        simp only [List.map_cons, List.sum_cons, if_pos rfl]
        have hz : (bs.map fun c => if a = c then w else 0).sum = 0 := by
          rw [List.sum_eq_zero]
          intro x hxm
          obtain ⟨c, hc, rfl⟩ := List.mem_map.mp hxm
          rw [if_neg]
          intro he
          exact hnb (he ▸ hc)
        rw [hz, add_zero]
        simp
      · have hba : ¬ a = b := fun he => (List.nodup_cons.mp hnd).1 (he ▸ ha)
        simp only [List.map_cons, List.sum_cons, if_neg hba]
        rw [ih (List.nodup_cons.mp hnd).2 ha, zero_add]

/-- Summing `classWeight` over duplicate-free columns covering every sampled
category recovers the total sampled weight. -/
theorem sum_classWeight (cols : List String) (sampled : List (String × ℚ))
    (hnd : cols.Nodup) (hc : ∀ p ∈ sampled, p.1 ∈ cols) :
    (cols.map (classWeight sampled)).sum = (sampled.map Prod.snd).sum := by
  induction sampled with
  | nil =>
      have hall : ∀ x ∈ cols.map (classWeight []), x = 0 := by
        intro x hx
        obtain ⟨c, _, rfl⟩ := List.mem_map.mp hx
        rfl
      rw [List.sum_eq_zero hall]
      simp
  | cons p s ih =>
      obtain ⟨a, w⟩ := p
      have h1 : ∀ q ∈ s, q.1 ∈ cols := fun q hq => hc q (List.mem_cons_of_mem _ hq)
      have h2 : a ∈ cols := hc (a, w) (List.mem_cons_self _ _)
      have hsplit : cols.map (classWeight ((a, w) :: s))
          = cols.map fun c => (if a = c then w else 0) + classWeight s c :=
        List.map_congr_left fun c _ => classWeight_cons a w s c
      rw [hsplit, List.sum_map_add, sum_ite_eq_of_nodup cols a w hnd h2, ih h1]
      simp

/-- A `classWeight` of nonnegative weights is nonnegative. -/
theorem classWeight_nonneg (sampled : List (String × ℚ)) (c : String)
    (hpos : ∀ p ∈ sampled, 0 ≤ p.2) : 0 ≤ classWeight sampled c := by
  unfold classWeight
  apply List.sum_nonneg
  intro x hx
  obtain ⟨p, hp, rfl⟩ := List.mem_map.mp hx
  exact hpos p (List.mem_filter.mp hp).1

/-- C8: for any draw of records (category/weight pairs whose Dirichlet weights
are nonnegative and sum to 1), the `mix_fast` label vector sums to exactly 1,
carries an entry for every class of the target class set `unique(cats)`, has
only nonnegative entries, and assigns exactly 0 to every class not among the
sampled records. -/
theorem claimC8_mix_label (cats : List String) (sampled : List (String × ℚ))
    (hpos : ∀ p ∈ sampled, 0 ≤ p.2)
    (hsum : (sampled.map Prod.snd).sum = 1) :
    ((mix_label cats sampled).map Prod.snd).sum = 1
    ∧ (∀ c ∈ cats.dedup, ∃ q, (c, q) ∈ mix_label cats sampled ∧ 0 ≤ q)
    ∧ (∀ p ∈ mix_label cats sampled, 0 ≤ p.2)
    ∧ (∀ p ∈ mix_label cats sampled, p.1 ∉ sampled.map Prod.fst → p.2 = 0) := by
  have hbase := label_cols_base_nodup cats sampled
  have hperm : List.Perm (label_cols cats sampled)
      ((sampled.map Prod.fst).dedup
        ++ cats.dedup.filter fun c => c ∉ sampled.map Prod.fst) :=
    sortCols_perm _
  refine ⟨?_, ?_, ?_, ?_⟩
  · have hm : (mix_label cats sampled).map Prod.snd
        = (label_cols cats sampled).map (classWeight sampled) := by
      unfold mix_label
      rw [List.map_map]
      rfl
    rw [hm, (hperm.map (classWeight sampled)).sum_eq,
      sum_classWeight _ sampled hbase ?_, hsum]
    intro p hp
    exact List.mem_append_left _
      (List.mem_dedup.mpr (List.mem_map_of_mem Prod.fst hp))
  · intro c hcd
    refine ⟨classWeight sampled c, ?_, classWeight_nonneg sampled c hpos⟩
    have hcol : c ∈ label_cols cats sampled := by
      rw [hperm.mem_iff]
      by_cases hcs : c ∈ sampled.map Prod.fst
      · exact List.mem_append_left _ (List.mem_dedup.mpr hcs)
      · refine List.mem_append_right _ (List.mem_filter.mpr ⟨hcd, ?_⟩)
        simpa using hcs
    exact List.mem_map_of_mem _ hcol
  · intro p hp
    obtain ⟨c, _, rfl⟩ := List.mem_map.mp hp
    exact classWeight_nonneg sampled c hpos
  · intro p hp hnp
    obtain ⟨c, _, rfl⟩ := List.mem_map.mp hp
    show classWeight sampled c = 0
    unfold classWeight
    have hfil : (sampled.filter fun p => p.1 = c) = [] := by
      rw [List.filter_eq_nil_iff]
      intro q hq hq1
      simp only [decide_eq_true_eq] at hq1
      have hq2 : q.1 ∈ sampled.map Prod.fst := List.mem_map_of_mem Prod.fst hq
      rw [hq1] at hq2
      exact hnp hq2
    rw [hfil]
    rfl

/-- C8 witness: with classes `{tree, bare, water}` and the concrete draw
`(tree, 1/3), (bare, 2/3)`, the label vector sums to 1, every entry is
nonnegative, and the undrawn class `water` gets exactly 0. -/
theorem claimC8_witness :
    ((mix_label cats8 sampled8).map Prod.snd).sum = 1
    ∧ (∀ p ∈ mix_label cats8 sampled8, 0 ≤ p.2) :=
  ⟨(claimC8_mix_label cats8 sampled8 (by norm_num [sampled8])
      (by norm_num [sampled8])).1,
   (claimC8_mix_label cats8 sampled8 (by norm_num [sampled8])
      (by norm_num [sampled8])).2.2.1⟩
